import Mathlib

/-!
Shallow embedding of the RDT (Resource Director Technology) class-of-service
allocation and monitoring engine from the hardware-knobs tools:
`common/msr_utils.c`, `rdt/rdt_monitor.c` and `rdt/rdt_bench.c`.

Machine 64-bit registers are modelled as `Nat` values together with explicit
`% 2^64` where C unsigned arithmetic wraps; C `int` parameters are modelled
as `Int` with explicit conversions at the points where the C code casts.
The Register Access Layer (`/dev/cpu/N/msr` I/O) is modelled as a register
file indexed by CPU and MSR address, together with injected failure oracles
for writes and reads, mirroring the spec's fake-Register-Access-Layer test
harness idea.
-/

namespace HardwareKnobs

/-- Error codes from `common/common.h`. -/
def SUCCESS : Int := 0

def ERROR_NOT_SUPPORTED : Int := -2

def ERROR_INVALID_PARAM : Int := -3

def ERROR_SYSTEM : Int := -4

/-- MSR addresses from `common/msr_utils.h`. -/
def MSR_IA32_L3_MASK_0 : Nat := 0xC90

def MSR_IA32_PQR_ASSOC : Nat := 0xC8F

def MSR_IA32_QM_EVTSEL : Nat := 0xC8D

def MSR_IA32_QM_CTR : Nat := 0xC8E

def MSR_IA32_MBA_THRTL_MSR : Nat := 0xD50

/-- `MAX_CLOS` from `rdt_bench.c` / the rdt test tool. -/
def MAX_CLOS : Int := 16

/-- `MAX_RMID` from `rdt_monitor.c`. -/
def MAX_RMID : Int := 256

def U64 : Nat := 2 ^ 64

def U32 : Nat := 2 ^ 32

/-- C cast `(uint64_t)i` of a signed `int` value. -/
def toU64 (i : Int) : Nat := (i % (2 ^ 64 : Int)).toNat

/-- C cast `(int)n` of a 64-bit unsigned value (wrapping conversion). -/
def toI32 (n : Nat) : Int :=
  if n % U32 < 2 ^ 31 then ((n % U32 : Nat) : Int) else ((n % U32 : Nat) : Int) - 2 ^ 32

/-- C uint64 left shift (wraps modulo `2^64`). -/
def shl64 (x k : Nat) : Nat := (x <<< k) % U64

/-- C uint64 subtraction `a - b` (wraps modulo `2^64`), for `a b < 2^64`. -/
def sub64 (a b : Nat) : Nat := (a + U64 - b % U64) % U64

/-- C uint64 multiplication (wraps modulo `2^64`). -/
def mul64 (a b : Nat) : Nat := a * b % U64

/-- The Register Access Layer state: a per-CPU register file plus injected
write/read failure oracles standing for the open/seek/write failures of the
`/dev/cpu/N/msr` device. -/
structure MsrWorld where
  regs : Nat → Nat → Nat
  wfail : Nat → Nat → Bool
  rfail : Nat → Nat → Bool

/-- Store `v` into CPU `cpu`'s register `msr`. -/
def MsrWorld.writeReg (w : MsrWorld) (cpu msr v : Nat) : MsrWorld :=
  { w with regs := fun c m => if c = cpu ∧ m = msr then v else w.regs c m }

/-- `msr_write_cpu` from `msr_utils.c`: open the per-CPU MSR device and write
one 64-bit value; any device/seek/write failure yields `ERROR_SYSTEM` and
leaves the register file unchanged. -/
def msr_write_cpu (w : MsrWorld) (cpu msr value : Nat) : Int × MsrWorld :=
  if w.wfail cpu msr then (ERROR_SYSTEM, w) else (SUCCESS, w.writeReg cpu msr value)

/-- `msr_read_cpu` from `msr_utils.c`: read one 64-bit value from a per-CPU
register; failures yield `ERROR_SYSTEM`. -/
def msr_read_cpu (w : MsrWorld) (cpu msr : Nat) : Int × Nat :=
  if w.rfail cpu msr then (ERROR_SYSTEM, 0) else (SUCCESS, w.regs cpu msr)

/-- The write loop of `msr_write_all_cpus` (and of `rdt_write_l3_mask`):
write CPUs `i, i+1, ..., i+n-1` in order, stopping at the first CPU whose
write fails. Returns whether every write succeeded, with the register file
reflecting exactly the writes performed before the stop. -/
def writeAllGo (msr value : Nat) (w : MsrWorld) (i : Nat) : Nat → Bool × MsrWorld
  | 0 => (true, w)
  | n + 1 =>
    if w.wfail i msr then (false, w)
    else writeAllGo msr value (w.writeReg i msr value) (i + 1) n

/-- `msr_write_all_cpus` from `msr_utils.c`: write `value` to register `msr`
of CPUs `0 .. min ncpus max_cpus - 1` in order; return the CPU count on full
success and `ERROR_SYSTEM` at the first failing CPU (`ncpus` models
`get_cpu_count()`). -/
def msr_write_all_cpus (w : MsrWorld) (msr value ncpus max_cpus : Nat) : Int × MsrWorld :=
  let cpu_count := min ncpus max_cpus
  let r := writeAllGo msr value w 0 cpu_count
  (if r.1 then (cpu_count : Int) else ERROR_SYSTEM, r.2)

/-- Address computation `MSR_IA32_L3_MASK_0 + clos_id` with the C `int`
summand converted to the `uint32_t` parameter of `msr_write_cpu`. -/
def l3MaskAddr (clos_id : Int) : Nat := ((0xC90 + clos_id) % (2 ^ 32 : Int)).toNat

/-- `rdt_read_l3_mask` from the rdt test tool: validate `clos_id` against
`MAX_CLOS` only, then read CPU 0's mask register for that class. -/
def rdt_read_l3_mask (w : MsrWorld) (clos_id : Int) : Int × Nat :=
  if MAX_CLOS ≤ clos_id then (ERROR_INVALID_PARAM, 0)
  else msr_read_cpu w 0 (l3MaskAddr clos_id)

/-- `rdt_write_l3_mask` from the rdt test tool: validate `clos_id` against
`MAX_CLOS` only, then write `mask` to every CPU's mask register for that
class, stopping with `ERROR_SYSTEM` at the first failing CPU. -/
def rdt_write_l3_mask (w : MsrWorld) (clos_id : Int) (mask ncpus : Nat) : Int × MsrWorld :=
  if MAX_CLOS ≤ clos_id then (ERROR_INVALID_PARAM, w)
  else
    let r := writeAllGo (l3MaskAddr clos_id) mask w 0 ncpus
    (if r.1 then SUCCESS else ERROR_SYSTEM, r.2)

/-- `rdt_set_clos` from the rdt test tool: validate `clos_id` against
`MAX_CLOS` only, then read-modify-write the association word, placing
`(uint64_t)clos_id` in bits 31:0 and keeping bits 63:32. -/
def rdt_set_clos (w : MsrWorld) (cpu : Nat) (clos_id : Int) : Int × MsrWorld :=
  if MAX_CLOS ≤ clos_id then (ERROR_INVALID_PARAM, w)
  else
    let r := msr_read_cpu w cpu MSR_IA32_PQR_ASSOC
    if r.1 ≠ SUCCESS then (ERROR_SYSTEM, w)
    else
      msr_write_cpu w cpu MSR_IA32_PQR_ASSOC
        ((r.2 &&& 0xFFFFFFFF00000000) ||| toU64 clos_id)

/-- `rdt_get_clos` from the rdt test tool: read the association word and
return `(int)(value & 0xFFFFFFFF)`. -/
def rdt_get_clos (w : MsrWorld) (cpu : Nat) : Int × Int :=
  let r := msr_read_cpu w cpu MSR_IA32_PQR_ASSOC
  if r.1 ≠ SUCCESS then (ERROR_SYSTEM, 0)
  else (SUCCESS, toI32 (r.2 &&& 0xFFFFFFFF))

/-- `rdt_monitor_set_rmid` from `rdt_monitor.c`: validate `rmid` against
`MAX_RMID` only, then read-modify-write the association word, placing
`(uint64_t)rmid << 32` in bits 63:32 and keeping bits 31:0. -/
def rdt_monitor_set_rmid (w : MsrWorld) (cpu : Nat) (rmid : Int) : Int × MsrWorld :=
  if MAX_RMID ≤ rmid then (ERROR_INVALID_PARAM, w)
  else
    let r := msr_read_cpu w cpu MSR_IA32_PQR_ASSOC
    if r.1 ≠ SUCCESS then (ERROR_SYSTEM, w)
    else
      msr_write_cpu w cpu MSR_IA32_PQR_ASSOC
        ((r.2 &&& 0x00000000FFFFFFFF) ||| shl64 (toU64 rmid) 32)

/-- `rdt_monitor_get_rmid` from `rdt_monitor.c`: read the association word
and return `(int)(value >> 32)`. -/
def rdt_monitor_get_rmid (w : MsrWorld) (cpu : Nat) : Int × Int :=
  let r := msr_read_cpu w cpu MSR_IA32_PQR_ASSOC
  if r.1 ≠ SUCCESS then (ERROR_SYSTEM, 0)
  else (SUCCESS, toI32 (r.2 >>> 32))

/-- `assign_thread_to_clos` from `rdt_bench.c` (the running CPU is passed in
for `sched_getcpu()`): reads the association word and writes
`(value & 0x00000000FFFFFFFF) | ((uint64_t)clos_id << 32)`, i.e. it places
the class id in bits 63:32 with no validation of `clos_id`. -/
def assign_thread_to_clos (w : MsrWorld) (cpu : Nat) (clos_id : Int) : Int × MsrWorld :=
  let r := msr_read_cpu w cpu MSR_IA32_PQR_ASSOC
  if r.1 ≠ SUCCESS then (ERROR_SYSTEM, w)
  else
    msr_write_cpu w cpu MSR_IA32_PQR_ASSOC
      ((r.2 &&& 0x00000000FFFFFFFF) ||| shl64 (toU64 clos_id) 32)

/-- `setup_rdt_clos` from `rdt_bench.c`: write the L3 mask for `clos_id` on
CPU 0 with no validation of `clos_id` or the mask; optionally write the MBA
throttle value (that second write's failure is only logged). -/
def setup_rdt_clos (w : MsrWorld) (mba : Bool) (clos_id : Int)
    (l3_mask mb_throttle : Nat) : Int × MsrWorld :=
  let r1 := msr_write_cpu w 0 (l3MaskAddr clos_id) l3_mask
  if r1.1 ≠ SUCCESS then (ERROR_SYSTEM, r1.2)
  else if mba ∧ 0 < mb_throttle then
    let r2 := msr_write_cpu r1.2 0 (((0xD50 + clos_id) % (2 ^ 32 : Int)).toNat) mb_throttle
    (SUCCESS, r2.2)
  else (SUCCESS, r1.2)

/-- One sample of the monitoring loops: the timestamp and the raw MBM
counter values read in that iteration. -/
structure MonSample where
  timestamp : Nat
  mbm_total : Nat
  mbm_local : Nat
deriving DecidableEq

/-- The rate computation of both monitoring loops:
`(curr - prev) * 1000000 / time_diff` in C `uint64_t` arithmetic. -/
def bwRate (prev curr timeDiff : Nat) : Nat :=
  mul64 (sub64 curr prev) 1000000 / timeDiff

/-- One iteration of `rdt_monitor_continuous` (`rdt_monitor.c`): rates are
printed only when `prev.timestamp > 0` and the time delta is positive;
`none` models the iterations that print nothing. -/
def contStepEmits (prev curr : MonSample) : Option (Nat × Nat) :=
  if 0 < prev.timestamp then
    let td := sub64 curr.timestamp prev.timestamp
    if 0 < td then
      some (bwRate prev.mbm_total curr.mbm_total td, bwRate prev.mbm_local curr.mbm_local td)
    else none
  else none

/-- One iteration of `monitor_rdt_metrics` (`rdt_bench.c`): the row is
printed whenever `prev_timestamp > 0`, with the rates left at 0 when the
time delta is not positive. -/
def benchStepEmits (prev curr : MonSample) : Option (Nat × Nat) :=
  if 0 < prev.timestamp then
    let td := sub64 curr.timestamp prev.timestamp
    if 0 < td then
      some (bwRate prev.mbm_total curr.mbm_total td, bwRate prev.mbm_local curr.mbm_local td)
    else some (0, 0)
  else none

/-- Fold a per-iteration emission function over the sample sequence,
carrying the previous sample exactly as the C loops do
(`prev_data = curr_data` at the end of each iteration). -/
def monEmissions (step : MonSample → MonSample → Option (Nat × Nat)) :
    MonSample → List MonSample → List (Option (Nat × Nat))
  | _, [] => []
  | prev, c :: rest => step prev c :: monEmissions step c rest

/-- The emissions of `rdt_monitor_continuous`: `prev_data` starts as the
zero-initialised struct (`timestamp = 0`). -/
def rdt_monitor_continuous_emissions (samples : List MonSample) : List (Option (Nat × Nat)) :=
  monEmissions contStepEmits ⟨0, 0, 0⟩ samples

/-- The emissions of `monitor_rdt_metrics`: the previous counters start at 0
but `prev_timestamp` starts at `start_time`, not 0. -/
def monitor_rdt_metrics_emissions (start_time : Nat) (samples : List MonSample) :
    List (Option (Nat × Nat)) :=
  monEmissions benchStepEmits ⟨start_time, 0, 0⟩ samples

/-- A raw register access, for the order-of-operations model of the
monitoring multiplexer. -/
inductive RegOp where
  | wr (cpu msr value : Nat)
  | rd (cpu msr : Nat)
deriving DecidableEq

/-- Register accesses of `rdt_monitor_read_llc_occupancy`: select event 1
for `rmid` on the shared event-select register, then read the shared
counter register. -/
def read_llc_occupancy_trace (rmid : Nat) : List RegOp :=
  [RegOp.wr 0 MSR_IA32_QM_EVTSEL (rmid ||| (1 <<< 32)), RegOp.rd 0 MSR_IA32_QM_CTR]

/-- Register accesses of `rdt_monitor_read_mbm_total` (event 2). -/
def read_mbm_total_trace (rmid : Nat) : List RegOp :=
  [RegOp.wr 0 MSR_IA32_QM_EVTSEL (rmid ||| (2 <<< 32)), RegOp.rd 0 MSR_IA32_QM_CTR]

/-- Register accesses of `rdt_monitor_read_mbm_local` (event 3). -/
def read_mbm_local_trace (rmid : Nat) : List RegOp :=
  [RegOp.wr 0 MSR_IA32_QM_EVTSEL (rmid ||| (3 <<< 32)), RegOp.rd 0 MSR_IA32_QM_CTR]

/-- Register accesses of one iteration of `rdt_monitor_continuous` (and of
`monitor_rdt_metrics`, which inlines the same three sequences with
`rmid = 0`): occupancy, then MBM total, then MBM local, in program order. -/
def monitor_iteration_trace (rmid : Nat) : List RegOp :=
  read_llc_occupancy_trace rmid ++ read_mbm_total_trace rmid ++ read_mbm_local_trace rmid

/-- Modelled from the spec: the Update Governor of spec §4.5 is not present
in the source tree (the only related code, `rdt_test_dynamic_switching` in
the rdt test tool, is a benchmark caller that invokes the propagator
directly). State per the spec: the Store's last requested value, the last
state propagated to hardware, the Scheduled flag, the time of the last
Applying→Idle transition, and the number of propagation passes performed. -/
structure GovState where
  store : Nat
  applied : Nat
  pending : Bool
  lastApply : Nat
  passes : Nat
deriving DecidableEq

/-- Modelled from the spec: `set()` stores the request and moves
Idle→Scheduled. -/
def govSet (g : GovState) (v : Nat) : GovState :=
  { g with store := v, pending := true }

/-- Modelled from the spec: `request_apply()` at time `now` runs a
propagation pass only when a pass is scheduled and the minimum inter-update
interval has elapsed since the last pass; the pass applies the Store's
current value (the Propagator re-reads from the Store). -/
def govTick (minInterval : Nat) (g : GovState) (now : Nat) : GovState :=
  if g.pending ∧ g.lastApply + minInterval ≤ now then
    { g with applied := g.store, pending := false, lastApply := now, passes := g.passes + 1 }
  else g

/-- Modelled from the spec: issue a sequence of timestamped
`set()` + `request_apply()` calls. -/
def govRun (minInterval : Nat) (g : GovState) : List (Nat × Nat) → GovState
  | [] => g
  | (t, v) :: rest => govRun minInterval (govTick minInterval (govSet g v) t) rest

/-- `msr_get_field` from `msr_utils.c`. -/
def msr_get_field (value : Nat) (start_bit num_bits : Nat) : Nat :=
  (value >>> start_bit) &&& (2 ^ num_bits - 1)

/-- `msr_set_field` from `msr_utils.c`; the C complement `~x` on `uint64_t`
is `x ^^^ (2^64 - 1)`. Shift amounts stay below 64 under the validated
ranges, so the shifts need no wrap. -/
def msr_set_field (value : Nat) (start_bit num_bits : Nat) (field_value : Nat) : Nat :=
  (value &&& (((2 ^ num_bits - 1) <<< start_bit) ^^^ (2 ^ 64 - 1))) |||
    ((field_value &&& (2 ^ num_bits - 1)) <<< start_bit)

/-- A register file holding the same value everywhere, with no injected
failures. -/
def constWorld (v : Nat) : MsrWorld :=
  ⟨fun _ _ => v, fun _ _ => false, fun _ _ => false⟩

/-- A register file holding 7 everywhere in which every write to CPU `k`
fails. -/
def failAt (k : Nat) : MsrWorld :=
  ⟨fun _ _ => 7, fun c _ => c == k, fun _ _ => false⟩

theorem writeAllGo_oracle (msr value : Nat) :
    ∀ (n i : Nat) (w : MsrWorld),
      (writeAllGo msr value w i n).2.wfail = w.wfail ∧
      (writeAllGo msr value w i n).2.rfail = w.rfail := by
  intro n
  induction n with
  | zero => intro i w; exact ⟨rfl, rfl⟩
  | succ n ih =>
    intro i w
    by_cases h : w.wfail i msr
    · simp [writeAllGo, h]
    · simpa [writeAllGo, h] using ih (i + 1) (w.writeReg i msr value)

theorem writeAllGo_success (msr value : Nat) :
    ∀ (n i : Nat) (w : MsrWorld),
      (∀ j, i ≤ j → j < i + n → w.wfail j msr = false) →
      (writeAllGo msr value w i n).1 = true ∧
      (∀ j, i ≤ j → j < i + n → (writeAllGo msr value w i n).2.regs j msr = value) ∧
      (∀ c m, c < i ∨ i + n ≤ c ∨ m ≠ msr →
        (writeAllGo msr value w i n).2.regs c m = w.regs c m) := by
  intro n
  induction n with
  | zero =>
    intro i w _
    refine ⟨rfl, ?_, ?_⟩
    · intro j h1 h2; omega
    · intro c m _; rfl
  | succ n ih =>
    intro i w hok
    have hi : w.wfail i msr = false := hok i le_rfl (by omega)
    have ihr := ih (i + 1) (w.writeReg i msr value)
      (fun j h1 h2 => hok j (by omega) (by omega))
    have heq : writeAllGo msr value w i (n + 1) =
        writeAllGo msr value (w.writeReg i msr value) (i + 1) n := by
      simp [writeAllGo, hi]
    refine ⟨heq ▸ ihr.1, ?_, ?_⟩
    · intro j h1 h2
      rw [heq]
      rcases Nat.lt_or_ge j (i + 1) with hj | hj
      · have hji : j = i := by omega
        subst hji
        rw [ihr.2.2 j msr (Or.inl (by omega))]
        simp [MsrWorld.writeReg]
      · exact ihr.2.1 j hj (by omega)
    · intro c m hcm
      rw [heq]
      have hcond : c < i + 1 ∨ i + 1 + n ≤ c ∨ m ≠ msr := by
        rcases hcm with h | h | h
        · exact Or.inl (by omega)
        · exact Or.inr (Or.inl (by omega))
        · exact Or.inr (Or.inr h)
      rw [ihr.2.2 c m hcond]
      have hne : ¬(c = i ∧ m = msr) := by
        rintro ⟨rfl, rfl⟩
        rcases hcm with h | h | h
        · omega
        · omega
        · exact h rfl
      simp [MsrWorld.writeReg, hne]

theorem writeAllGo_stop (msr value : Nat) :
    ∀ (n i : Nat) (w : MsrWorld) (k : Nat),
      i ≤ k → k < i + n → w.wfail k msr = true →
      (∀ j, i ≤ j → j < k → w.wfail j msr = false) →
      (writeAllGo msr value w i n).1 = false ∧
      (∀ j, i ≤ j → j < k → (writeAllGo msr value w i n).2.regs j msr = value) ∧
      (∀ c m, c < i ∨ k ≤ c ∨ m ≠ msr →
        (writeAllGo msr value w i n).2.regs c m = w.regs c m) := by
  intro n
  induction n with
  | zero =>
    intro i w k h1 h2 _ _
    omega
  | succ n ih =>
    intro i w k hik hkn hk hbefore
    rcases Nat.eq_or_lt_of_le hik with rfl | hlt
    · have heq : writeAllGo msr value w i (n + 1) = (false, w) := by
        simp [writeAllGo, hk]
      refine ⟨by rw [heq], ?_, ?_⟩
      · intro j h1 h2; omega
      · intro c m _; rw [heq]
    · have hi : w.wfail i msr = false := hbefore i le_rfl hlt
      have heq : writeAllGo msr value w i (n + 1) =
          writeAllGo msr value (w.writeReg i msr value) (i + 1) n := by
        simp [writeAllGo, hi]
      have ihr := ih (i + 1) (w.writeReg i msr value) k (by omega) (by omega) hk
        (fun j h1 h2 => hbefore j (by omega) h2)
      refine ⟨heq ▸ ihr.1, ?_, ?_⟩
      · intro j h1 h2
        rw [heq]
        rcases Nat.lt_or_ge j (i + 1) with hj | hj
        · have hji : j = i := by omega
          subst hji
          rw [ihr.2.2 j msr (Or.inl (by omega))]
          simp [MsrWorld.writeReg]
        · exact ihr.2.1 j hj h2
      · intro c m hcm
        rw [heq]
        have hcond : c < i + 1 ∨ k ≤ c ∨ m ≠ msr := by
          rcases hcm with h | h | h
          · exact Or.inl (by omega)
          · exact Or.inr (Or.inl h)
          · exact Or.inr (Or.inr h)
        rw [ihr.2.2 c m hcond]
        have hne : ¬(c = i ∧ m = msr) := by
          rintro ⟨rfl, rfl⟩
          rcases hcm with h | h | h
          · omega
          · omega
          · exact h rfl
        simp [MsrWorld.writeReg, hne]

theorem govTick_store (I : Nat) (g : GovState) (now : Nat) :
    (govTick I g now).store = g.store := by
  unfold govTick
  split <;> rfl

theorem govRun_store (I : Nat) :
    ∀ (reqs : List (Nat × Nat)) (g : GovState) (t v : Nat),
      reqs.getLast? = some (t, v) → (govRun I g reqs).store = v := by
  intro reqs
  induction reqs with
  | nil => intro g t v h; simp at h
  | cons a rest ih =>
    intro g t v h
    obtain ⟨ta, va⟩ := a
    cases rest with
    | nil =>
      simp [List.getLast?] at h
      simp [govRun, govTick_store, govSet, h.2]
    | cons b rest2 =>
      rw [List.getLast?_cons_cons] at h
      exact ih _ t v h

theorem govStep_ok (I : Nat) (g : GovState) (t v : Nat) :
    (govTick I (govSet g v) t).pending = false →
    (govTick I (govSet g v) t).applied = (govTick I (govSet g v) t).store := by
  unfold govTick govSet
  split
  · intro _; rfl
  · intro h; simp at h

theorem govRun_ok (I : Nat) :
    ∀ (reqs : List (Nat × Nat)) (g : GovState),
      (g.pending = false → g.applied = g.store) →
      ((govRun I g reqs).pending = false →
        (govRun I g reqs).applied = (govRun I g reqs).store) := by
  intro reqs
  induction reqs with
  | nil => intro g h; exact h
  | cons a rest ih =>
    intro g _
    obtain ⟨ta, va⟩ := a
    exact ih (govTick I (govSet g va) ta) (govStep_ok I g ta va)

theorem govRun_flush (I : Nat) :
    ∀ (reqs : List (Nat × Nat)) (g : GovState), reqs ≠ [] →
      (govRun I g reqs).pending = false →
      (govRun I g reqs).applied = (govRun I g reqs).store := by
  intro reqs
  cases reqs with
  | nil => intro g h; exact absurd rfl h
  | cons a rest =>
    intro g _
    obtain ⟨ta, va⟩ := a
    exact govRun_ok I rest (govTick I (govSet g va) ta) (govStep_ok I g ta va)

theorem govRun_noFire (I t0 : Nat) :
    ∀ (reqs : List (Nat × Nat)) (g : GovState),
      (∀ p ∈ reqs, p.1 < t0 + I) → t0 ≤ g.lastApply →
      (govRun I g reqs).passes = g.passes ∧ (govRun I g reqs).lastApply = g.lastApply := by
  intro reqs
  induction reqs with
  | nil => intro g _ _; exact ⟨rfl, rfl⟩
  | cons a rest ih =>
    intro g hwin hla
    obtain ⟨ta, va⟩ := a
    have hta : ta < t0 + I := hwin (ta, va) (by simp)
    have hnf : ¬((govSet g va).pending = true ∧ (govSet g va).lastApply + I ≤ ta) := by
      intro hc
      have : g.lastApply + I ≤ ta := hc.2
      omega
    have heq : govTick I (govSet g va) ta = govSet g va := by
      unfold govTick
      rw [if_neg (by simpa using hnf)]
    rw [govRun, heq]
    exact ih (govSet g va) (fun p hp => hwin p (by simp [hp])) hla

theorem govRun_passes_bound (I t0 : Nat) :
    ∀ (reqs : List (Nat × Nat)) (g : GovState),
      (∀ p ∈ reqs, t0 ≤ p.1 ∧ p.1 < t0 + I) →
      (govRun I g reqs).passes ≤ g.passes + 1 := by
  intro reqs
  induction reqs with
  | nil => intro g _; simp [govRun]
  | cons a rest ih =>
    intro g hwin
    obtain ⟨ta, va⟩ := a
    have hta := hwin (ta, va) (by simp)
    rw [govRun]
    by_cases hfire : (govSet g va).pending = true ∧ (govSet g va).lastApply + I ≤ ta
    · have hp : (govTick I (govSet g va) ta).passes = g.passes + 1 := by
        unfold govTick
        rw [if_pos (by simpa using hfire)]
        rfl
      have hla : (govTick I (govSet g va) ta).lastApply = ta := by
        unfold govTick
        rw [if_pos (by simpa using hfire)]
      have hnf := govRun_noFire I t0 rest (govTick I (govSet g va) ta)
        (fun p hp => (hwin p (by simp [hp])).2) (by rw [hla]; exact hta.1)
      omega
    · have heq : govTick I (govSet g va) ta = govSet g va := by
        unfold govTick
        rw [if_neg (by simpa using hfire)]
      rw [heq]
      exact ih (govSet g va) (fun p hp => hwin p (by simp [hp]))

/-- C9: for every 64-bit value `v`, field value `f`, start bit `s` and width
`n` with `1 ≤ n` and `s + n ≤ 63`, reading back a field just written with
`msr_set_field` yields `f mod 2^n`, and `msr_set_field` agrees with `v` on
every bit outside positions `s .. s+n-1`. -/
theorem claim_C9_field_ops (v f s n : Nat)
    (hv : v < 2 ^ 64) (hn : 1 ≤ n) (hsn : s + n ≤ 63) :
    msr_get_field (msr_set_field v s n f) s n = f % 2 ^ n ∧
    ∀ i, i < s ∨ s + n ≤ i → (msr_set_field v s n f).testBit i = v.testBit i := by
  constructor
  · apply Nat.eq_of_testBit_eq
    intro i
    simp only [msr_get_field, msr_set_field, Nat.testBit_and, Nat.testBit_or,
      Nat.testBit_xor, Nat.testBit_shiftLeft, Nat.testBit_shiftRight,
      Nat.testBit_mod_two_pow, Nat.testBit_two_pow_sub_one, ge_iff_le]
    have hle : s ≤ s + i := by omega
    have hsub : s + i - s = i := by omega
    by_cases hin : i < n
    · have h64 : s + i < 64 := by omega
      simp [hle, hsub, hin, h64]
    · simp [hin]
  · intro i hi
    simp only [msr_set_field, Nat.testBit_or, Nat.testBit_and, Nat.testBit_xor,
      Nat.testBit_shiftLeft, Nat.testBit_two_pow_sub_one, ge_iff_le]
    rcases hi with hi | hi
    · have hns : ¬(s ≤ i) := by omega
      have h64 : i < 64 := by omega
      simp [hns, h64]
    · have hge : s ≤ i := by omega
      have hnlt : ¬(i - s < n) := by omega
      by_cases h64 : i < 64
      · simp [hge, hnlt, h64]
      · have hv' : v.testBit i = false :=
          Nat.testBit_lt_two_pow
            (lt_of_lt_of_le hv (Nat.pow_le_pow_right (by norm_num) (by omega)))
        simp [hge, hnlt, h64, hv']

/-- C9 witness: the round-trip and frame conclusions at the concrete input
`v = 0xABCD`, `s = 4`, `n = 8`, `f = 0x1FF`. -/
theorem claim_C9_witness :
    msr_get_field (msr_set_field 0xABCD 4 8 0x1FF) 4 8 = 0x1FF % 2 ^ 8 ∧
    (msr_set_field 0xABCD 4 8 0x1FF).testBit 2 = (0xABCD : Nat).testBit 2 := by
  have h := claim_C9_field_ops 0xABCD 0x1FF 4 8 (by norm_num) (by norm_num) (by norm_num)
  exact ⟨h.1, h.2 2 (Or.inl (by norm_num))⟩

/-- C1: evaluating `assign_thread_to_clos` (`rdt_bench.c`) at a CPU whose
association word holds monitoring identifier 7 (bits 63:32) and class id 3
(bits 31:0): assigning class 5 overwrites the monitoring-identifier half
with 5 instead of preserving 7, and afterwards `rdt_get_clos` still reads
class 3 while `rdt_monitor_get_rmid` reads 5 — the class id was programmed
into the monitoring half, contradicting the read-modify-write convention of
`rdt_set_clos` and `rdt_monitor_set_rmid`. -/
theorem claim_C1_eval :
    (constWorld ((7 <<< 32) ||| 3)).regs 0 MSR_IA32_PQR_ASSOC >>> 32 = 7 ∧
    (assign_thread_to_clos (constWorld ((7 <<< 32) ||| 3)) 0 5).1 = SUCCESS ∧
    (assign_thread_to_clos (constWorld ((7 <<< 32) ||| 3)) 0 5).2.regs 0
        MSR_IA32_PQR_ASSOC >>> 32 = 5 ∧
    rdt_get_clos (assign_thread_to_clos (constWorld ((7 <<< 32) ||| 3)) 0 5).2 0
        = (SUCCESS, 3) ∧
    rdt_monitor_get_rmid (assign_thread_to_clos (constWorld ((7 <<< 32) ||| 3)) 0 5).2 0
        = (SUCCESS, 5) := by
  decide

/-- C2: evaluating the rate computation of `rdt_monitor_continuous` on two
samples where the raw counter decreases (100 then 50, one second apart):
the loop emits a rate — it does not flag a counter reset — and the emitted
value is the wrapped `uint64` quotient 18446744073659, an astronomically
large number. -/
theorem claim_C2_eval :
    rdt_monitor_continuous_emissions
        [⟨1000000, 100, 100⟩, ⟨2000000, 50, 50⟩]
      = [none, some (18446744073659, 18446744073659)] ∧
    2 ^ 40 < 18446744073659 := by
  constructor
  · decide
  · norm_num

/-- C4: evaluating the first iteration of `monitor_rdt_metrics`
(`rdt_bench.c`) with `start_time = 1000` and a first sample at time 2000
reading counters 500 and 300: because `prev_timestamp` is seeded with
`start_time` instead of 0, the guard passes and a rate is emitted from the
fabricated previous sample `(0, start_time)`; the sibling loop
`rdt_monitor_continuous` (`rdt_monitor.c`), whose previous timestamp starts
at 0, emits nothing on the same first sample. -/
theorem claim_C4_eval :
    monitor_rdt_metrics_emissions 1000 [⟨2000, 500, 300⟩] = [some (500000, 300000)] ∧
    rdt_monitor_continuous_emissions [⟨2000, 500, 300⟩] = [none] := by
  decide

/-- C3 counterexample: `msr_write_all_cpus` over 3 CPUs returns the same
bare `ERROR_SYSTEM` whether the first failing CPU is CPU 1 (one write
succeeded) or CPU 0 (no write succeeded), so its result does not report the
number of writes that succeeded, refuting the claimed
`PartialFailure(applied_count, first_error)` shape. -/
theorem claim_C3_counterexample :
    (msr_write_all_cpus (failAt 1) 0xC90 5 3 3).1 = ERROR_SYSTEM ∧
    (msr_write_all_cpus (failAt 0) 0xC90 5 3 3).1 = ERROR_SYSTEM ∧
    (msr_write_all_cpus (failAt 1) 0xC90 5 3 3).1
      = (msr_write_all_cpus (failAt 0) 0xC90 5 3 3).1 ∧
    (msr_write_all_cpus (failAt 1) 0xC90 5 3 3).2.regs 0 0xC90 = 5 ∧
    (msr_write_all_cpus (failAt 0) 0xC90 5 3 3).2.regs 0 0xC90 = 7 := by
  decide

/-- C6 counterexample: a zero bitmask is not rejected — `rdt_write_l3_mask`
with class 1, mask 0 on 2 CPUs returns `SUCCESS` and writes 0 into the mask
register of every CPU, changing hardware state (registers held `0xFFFF`
before). -/
theorem claim_C6_counterexample :
    (rdt_write_l3_mask (constWorld 0xFFFF) 1 0 2).1 = SUCCESS ∧
    (rdt_write_l3_mask (constWorld 0xFFFF) 1 0 2).2.regs 0 0xC91 = 0 ∧
    (rdt_write_l3_mask (constWorld 0xFFFF) 1 0 2).2.regs 1 0xC91 = 0 ∧
    (constWorld 0xFFFF).regs 0 0xC91 = 0xFFFF := by
  decide

/-- C3 (amended): the batch register write visits CPUs in enumeration order
and stops at the first CPU whose write fails, attempting no write to any
later CPU, so CPUs before the failing index hold the new value and CPUs at
or after it retain their old value; on full success it returns the number
of CPUs written, and on failure it returns the bare error code
`ERROR_SYSTEM`, which does not carry the number of writes that
succeeded. -/
theorem claim_C3_amended (w : MsrWorld) (msr value ncpus max_cpus k : Nat) :
    ((∀ i, i < min ncpus max_cpus → w.wfail i msr = false) →
      (msr_write_all_cpus w msr value ncpus max_cpus).1 = (min ncpus max_cpus : Int) ∧
      ∀ i, i < min ncpus max_cpus →
        (msr_write_all_cpus w msr value ncpus max_cpus).2.regs i msr = value) ∧
    (k < min ncpus max_cpus → w.wfail k msr = true →
      (∀ j, j < k → w.wfail j msr = false) →
      (msr_write_all_cpus w msr value ncpus max_cpus).1 = ERROR_SYSTEM ∧
      (∀ i, i < k → (msr_write_all_cpus w msr value ncpus max_cpus).2.regs i msr = value) ∧
      (∀ i, k ≤ i → (msr_write_all_cpus w msr value ncpus max_cpus).2.regs i msr
        = w.regs i msr)) := by
  constructor
  · intro hok
    have h := writeAllGo_success msr value (min ncpus max_cpus) 0 w
      (fun j _ hj => hok j (by omega))
    unfold msr_write_all_cpus
    refine ⟨by simp [h.1], ?_⟩
    intro i hi
    exact h.2.1 i (by omega) (by omega)
  · intro hk hfail hbefore
    have h := writeAllGo_stop msr value (min ncpus max_cpus) 0 w k (by omega) (by omega)
      hfail (fun j _ hj => hbefore j hj)
    unfold msr_write_all_cpus
    refine ⟨by simp [h.1, ERROR_SYSTEM], ?_, ?_⟩
    · intro i hi
      exact h.2.1 i (by omega) hi
    · intro i hi
      exact h.2.2 i msr (Or.inr (Or.inl hi))

/-- C3 witness: the amended behaviour at concrete inputs — on the
no-failure world the batch write over 3 CPUs returns 3 and writes every
CPU; on a world whose CPU-1 write fails it returns `ERROR_SYSTEM`, CPU 0
holds the new value and CPUs 1 and 2 the old one. -/
theorem claim_C3_witness :
    (msr_write_all_cpus (constWorld 7) 0xC90 5 3 3).1 = (3 : Int) ∧
    (msr_write_all_cpus (constWorld 7) 0xC90 5 3 3).2.regs 2 0xC90 = 5 ∧
    (msr_write_all_cpus (failAt 1) 0xC90 5 3 3).1 = ERROR_SYSTEM ∧
    (msr_write_all_cpus (failAt 1) 0xC90 5 3 3).2.regs 0 0xC90 = 5 ∧
    (msr_write_all_cpus (failAt 1) 0xC90 5 3 3).2.regs 2 0xC90 = (failAt 1).regs 2 0xC90 := by
  have h1 := (claim_C3_amended (constWorld 7) 0xC90 5 3 3 0).1 (by decide)
  have h2 := (claim_C3_amended (failAt 1) 0xC90 5 3 3 1).2 (by decide) (by decide)
    (by decide)
  exact ⟨h1.1, h1.2 2 (by decide), h2.1, h2.2.1 0 (by decide), h2.2.2 2 (by decide)⟩

/-- C6 (amended): `rdt_write_l3_mask` validates only the class id — a class
id at or above `MAX_CLOS` is rejected with `ERROR_INVALID_PARAM` before any
register access, leaving the world unchanged — while a zero bitmask is not
rejected: for an in-range class id (absent injected failures) the call
returns `SUCCESS` and writes 0 into every CPU's mask register. -/
theorem claim_C6_amended (w : MsrWorld) (clos : Int) (ncpus : Nat) :
    (MAX_CLOS ≤ clos → rdt_write_l3_mask w clos 0 ncpus = (ERROR_INVALID_PARAM, w)) ∧
    (clos < MAX_CLOS →
      (∀ i, i < ncpus → w.wfail i (l3MaskAddr clos) = false) →
      (rdt_write_l3_mask w clos 0 ncpus).1 = SUCCESS ∧
      ∀ i, i < ncpus → (rdt_write_l3_mask w clos 0 ncpus).2.regs i (l3MaskAddr clos) = 0) := by
  constructor
  · intro h
    simp [rdt_write_l3_mask, h]
  · intro h hok
    have hgo := writeAllGo_success (l3MaskAddr clos) 0 ncpus 0 w
      (fun j _ hj => hok j (by omega))
    have hlt : ¬(MAX_CLOS ≤ clos) := by omega
    unfold rdt_write_l3_mask
    rw [if_neg hlt]
    refine ⟨by simp [hgo.1], ?_⟩
    intro i hi
    exact hgo.2.1 i (by omega) (by omega)

/-- C6 witness: the amended behaviour at concrete inputs — class 16 is
rejected leaving the world untouched, and class 1 with mask 0 succeeds and
writes 0 to both CPUs. -/
theorem claim_C6_witness :
    rdt_write_l3_mask (constWorld 0xFFFF) 16 0 2 = (ERROR_INVALID_PARAM, constWorld 0xFFFF) ∧
    (rdt_write_l3_mask (constWorld 0xFFFF) 1 0 2).1 = SUCCESS ∧
    (rdt_write_l3_mask (constWorld 0xFFFF) 1 0 2).2.regs 1 (l3MaskAddr 1) = 0 := by
  have h1 := (claim_C6_amended (constWorld 0xFFFF) 16 2).1 (by decide)
  have h2 := (claim_C6_amended (constWorld 0xFFFF) 1 2).2 (by decide) (by decide)
  exact ⟨h1, h2.1, h2.2 1 (by decide)⟩

/-- C7: for every non-zero 64-bit bitmask `M` and in-range class id,
writing `M` with `rdt_write_l3_mask` (absent injected failures) and then
reading the same class back with `rdt_read_l3_mask` returns exactly `M`;
the model's register file holds written values without reinterpretation,
matching the claim's assumption. -/
theorem claim_C7_roundtrip (w : MsrWorld) (clos : Int) (mask ncpus : Nat)
    (hclos : clos < MAX_CLOS) (hmask : 0 < mask) (hmask64 : mask < U64) (hn : 0 < ncpus)
    (hw : ∀ i, i < ncpus → w.wfail i (l3MaskAddr clos) = false)
    (hr : w.rfail 0 (l3MaskAddr clos) = false) :
    (rdt_write_l3_mask w clos mask ncpus).1 = SUCCESS ∧
    rdt_read_l3_mask (rdt_write_l3_mask w clos mask ncpus).2 clos = (SUCCESS, mask) := by
  have hgo := writeAllGo_success (l3MaskAddr clos) mask ncpus 0 w
    (fun j _ hj => hw j (by omega))
  have hor := writeAllGo_oracle (l3MaskAddr clos) mask ncpus 0 w
  have hlt : ¬(MAX_CLOS ≤ clos) := by omega
  unfold rdt_write_l3_mask
  rw [if_neg hlt]
  refine ⟨by simp [hgo.1], ?_⟩
  unfold rdt_read_l3_mask
  rw [if_neg hlt]
  unfold msr_read_cpu
  rw [hor.2, hr]
  simp [hgo.2.1 0 (by omega) (by omega)]

/-- C7 witness: writing mask `0x3FF` to class 1 over 2 CPUs on the
zero-initialised world succeeds and reads back exactly `0x3FF`. -/
theorem claim_C7_witness :
    (rdt_write_l3_mask (constWorld 0) 1 0x3FF 2).1 = SUCCESS ∧
    rdt_read_l3_mask (rdt_write_l3_mask (constWorld 0) 1 0x3FF 2).2 1 = (SUCCESS, 0x3FF) := by
  exact claim_C7_roundtrip (constWorld 0) 1 0x3FF 2 (by decide) (by decide)
    (by norm_num [U64]) (by decide) (by decide) (by decide)

/-- C10: the class-id and monitoring-id setters validate their identifier
only against the upper bound — `clos_id ≥ 16` (resp. `rmid ≥ 256`) returns
`ERROR_INVALID_PARAM` with the world unchanged — while every negative
identifier passes validation: `rdt_write_l3_mask` then writes through the
address computed as `(uint32_t)(0xC90 + clos_id)`, and `rdt_set_clos` /
`rdt_monitor_set_rmid` program the cast `(uint64_t)` identifier into the
association word. -/
theorem claim_C10_validation (w : MsrWorld) (cpu ncpus mask : Nat) (id : Int) :
    (MAX_CLOS ≤ id →
      rdt_write_l3_mask w id mask ncpus = (ERROR_INVALID_PARAM, w) ∧
      rdt_set_clos w cpu id = (ERROR_INVALID_PARAM, w)) ∧
    (MAX_RMID ≤ id → rdt_monitor_set_rmid w cpu id = (ERROR_INVALID_PARAM, w)) ∧
    (id < 0 →
      ((∀ i, i < ncpus → w.wfail i (l3MaskAddr id) = false) →
        (rdt_write_l3_mask w id mask ncpus).1 = SUCCESS ∧
        ∀ i, i < ncpus → (rdt_write_l3_mask w id mask ncpus).2.regs i (l3MaskAddr id) = mask) ∧
      (w.rfail cpu MSR_IA32_PQR_ASSOC = false → w.wfail cpu MSR_IA32_PQR_ASSOC = false →
        (rdt_set_clos w cpu id).1 = SUCCESS ∧
        (rdt_set_clos w cpu id).2.regs cpu MSR_IA32_PQR_ASSOC
          = ((w.regs cpu MSR_IA32_PQR_ASSOC &&& 0xFFFFFFFF00000000) ||| toU64 id)) ∧
      (w.rfail cpu MSR_IA32_PQR_ASSOC = false → w.wfail cpu MSR_IA32_PQR_ASSOC = false →
        (rdt_monitor_set_rmid w cpu id).1 = SUCCESS ∧
        (rdt_monitor_set_rmid w cpu id).2.regs cpu MSR_IA32_PQR_ASSOC
          = ((w.regs cpu MSR_IA32_PQR_ASSOC &&& 0x00000000FFFFFFFF)
              ||| shl64 (toU64 id) 32))) := by
  refine ⟨?_, ?_, ?_⟩
  · intro h
    constructor
    · simp [rdt_write_l3_mask, h]
    · simp [rdt_set_clos, h]
  · intro h
    simp [rdt_monitor_set_rmid, h]
  · intro hneg
    have hclos : ¬(MAX_CLOS ≤ id) := by unfold MAX_CLOS; omega
    have hrmid : ¬(MAX_RMID ≤ id) := by unfold MAX_RMID; omega
    refine ⟨?_, ?_, ?_⟩
    · intro hok
      have hgo := writeAllGo_success (l3MaskAddr id) mask ncpus 0 w
        (fun j _ hj => hok j (by omega))
      unfold rdt_write_l3_mask
      rw [if_neg hclos]
      refine ⟨by simp [hgo.1], ?_⟩
      intro i hi
      exact hgo.2.1 i (by omega) (by omega)
    · intro hrf hwf
      unfold rdt_set_clos msr_read_cpu msr_write_cpu
      rw [if_neg hclos]
      simp [hrf, hwf, SUCCESS, MsrWorld.writeReg]
    · intro hrf hwf
      unfold rdt_monitor_set_rmid msr_read_cpu msr_write_cpu
      rw [if_neg hrmid]
      simp [hrf, hwf, SUCCESS, MsrWorld.writeReg]

/-- C10 witness: at concrete inputs — class 16 and rmid 256 are rejected
with the world unchanged, while the negative identifier −1 passes
validation: the mask write lands on address `0xC8B + ... = (uint32_t)(0xC90 - 1)`
and the association word receives `(uint64_t)(-1)`. -/
theorem claim_C10_witness :
    rdt_write_l3_mask (constWorld 7) 16 5 2 = (ERROR_INVALID_PARAM, constWorld 7) ∧
    rdt_monitor_set_rmid (constWorld 7) 0 256 = (ERROR_INVALID_PARAM, constWorld 7) ∧
    (rdt_write_l3_mask (constWorld 7) (-1) 5 2).1 = SUCCESS ∧
    (rdt_write_l3_mask (constWorld 7) (-1) 5 2).2.regs 0 (l3MaskAddr (-1)) = 5 ∧
    (rdt_set_clos (constWorld ((7 <<< 32) ||| 3)) 0 (-1)).2.regs 0 MSR_IA32_PQR_ASSOC
      = (((7 <<< 32) ||| 3 : Nat) &&& 0xFFFFFFFF00000000) ||| toU64 (-1) := by
  have h16 := (claim_C10_validation (constWorld 7) 0 2 5 16).1 (by decide)
  have h256 := (claim_C10_validation (constWorld 7) 0 2 5 256).2.1 (by decide)
  have hneg := (claim_C10_validation (constWorld 7) 0 2 5 (-1)).2.2 (by decide)
  have hnegw := hneg.1 (by decide)
  have hnegc := (((claim_C10_validation (constWorld ((7 <<< 32) ||| 3)) 0 2 5 (-1)).2.2)
    (by decide)).2.1 (by decide) (by decide)
  exact ⟨h16.1, h256, hnegw.1, hnegw.2 0 (by decide), hnegc.2⟩

/-- C8: in one monitoring iteration, every read of the shared counter
register `MSR_IA32_QM_CTR` is immediately preceded by a write of the
matching `(identifier, event)` selector to the shared event-select register
`MSR_IA32_QM_EVTSEL` (events 1, 2, 3 at trace positions 0/2/4 with their
reads at 1/3/5), each select-then-read pair completes before the next
begins, and the counter reads for distinct event kinds occupy distinct
trace positions — they are never taken at the same instant. -/
theorem claim_C8_multiplex (rmid : Nat) :
    (∀ ev, ev = 1 ∨ ev = 2 ∨ ev = 3 →
      (monitor_iteration_trace rmid)[2 * ev - 2]?
        = some (RegOp.wr 0 MSR_IA32_QM_EVTSEL (rmid ||| (ev <<< 32))) ∧
      (monitor_iteration_trace rmid)[2 * ev - 1]? = some (RegOp.rd 0 MSR_IA32_QM_CTR)) ∧
    (∀ i, (monitor_iteration_trace rmid)[i]? = some (RegOp.rd 0 MSR_IA32_QM_CTR) →
      i = 1 ∨ i = 3 ∨ i = 5) := by
  constructor
  · rintro ev (rfl | rfl | rfl) <;>
      simp [monitor_iteration_trace, read_llc_occupancy_trace, read_mbm_total_trace,
        read_mbm_local_trace]
  · intro i h
    simp only [monitor_iteration_trace, read_llc_occupancy_trace, read_mbm_total_trace,
      read_mbm_local_trace, List.cons_append, List.nil_append] at h
    rcases i with _ | _ | _ | _ | _ | _ | n
    · simp at h
    · simp
    · simp at h
    · simp
    · simp at h
    · simp
    · simp at h

/-- C8 witness: the select-then-read pairing at the concrete identifier 0 —
position 0 writes the occupancy selector and position 1 reads the counter. -/
theorem claim_C8_witness :
    (monitor_iteration_trace 0)[0]?
      = some (RegOp.wr 0 MSR_IA32_QM_EVTSEL (0 ||| (1 <<< 32))) ∧
    (monitor_iteration_trace 0)[1]? = some (RegOp.rd 0 MSR_IA32_QM_CTR) := by
  have h := (claim_C8_multiplex 0).1 1 (Or.inl rfl)
  exact h

/-- C5 (spec-modelled governor): issuing `N ≥ 2` `set()` + `request_apply()`
calls whose times all fall inside one minimum inter-update interval results
in fewer than `N` propagation passes, and once the interval has elapsed the
next `request_apply` leaves the applied state equal to the last requested
value — last-write-wins, with the Store never losing the final request. -/
theorem claim_C5_governor (I : Nat) (g0 : GovState) (reqs : List (Nat × Nat)) (t0 : Nat)
    (hlen : 2 ≤ reqs.length)
    (hwin : ∀ p ∈ reqs, t0 ≤ p.1 ∧ p.1 < t0 + I) :
    (govRun I g0 reqs).passes < g0.passes + reqs.length ∧
    ∀ t v tf, reqs.getLast? = some (t, v) →
      (govRun I g0 reqs).lastApply + I ≤ tf →
      (govTick I (govRun I g0 reqs) tf).applied = v := by
  constructor
  · have h := govRun_passes_bound I t0 reqs g0 hwin
    omega
  · intro t v tf hlast htf
    have hstore : (govRun I g0 reqs).store = v := govRun_store I reqs g0 t v hlast
    have hne : reqs ≠ [] := by
      intro h
      rw [h] at hlen
      simp at hlen
    by_cases hfire : (govRun I g0 reqs).pending = true ∧
        (govRun I g0 reqs).lastApply + I ≤ tf
    · have : (govTick I (govRun I g0 reqs) tf).applied = (govRun I g0 reqs).store := by
        unfold govTick
        rw [if_pos (by simpa using hfire)]
      rw [this, hstore]
    · have hp : (govRun I g0 reqs).pending = false := by
        rcases Bool.eq_false_or_eq_true (govRun I g0 reqs).pending with h | h
        · exact absurd ⟨h, htf⟩ hfire
        · exact h
      have happ := govRun_flush I reqs g0 hne hp
      have : govTick I (govRun I g0 reqs) tf = govRun I g0 reqs := by
        unfold govTick
        rw [if_neg (by simp [hp])]
      rw [this, happ, hstore]

/-- C5 witness: two requests (values 5 then 7 at times 0 and 3) inside a
minimum interval of 10 starting from the idle state: fewer than 2 passes
run, and a `request_apply` at time 30 leaves the applied state 7. -/
theorem claim_C5_witness :
    (govRun 10 ⟨0, 0, false, 0, 0⟩ [(0, 5), (3, 7)]).passes < 0 + 2 ∧
    (govTick 10 (govRun 10 ⟨0, 0, false, 0, 0⟩ [(0, 5), (3, 7)]) 30).applied = 7 := by
  have h := claim_C5_governor 10 ⟨0, 0, false, 0, 0⟩ [(0, 5), (3, 7)] 0 (by decide)
    (by decide)
  exact ⟨h.1, h.2 3 7 30 (by decide) (by decide)⟩

end HardwareKnobs
